import Mathlib

/-!
Shallow embedding of the schema-mapping engine of the repository
(`extractor.py`, `mapper.py`, `simple_mapper.py`).

Python floats are modelled as exact rationals: every confidence value the
program manipulates is a literal (0.9, 0.3, 0.5, ...) compared with `>`,
with no float arithmetic, so the rational model is observation-equivalent.
External collaborators (the vector store and the reasoning service) are
modelled as oracle functions supplied to the engine; everything the
repository itself computes is translated definitionally from the source.
-/

namespace SchemaMapper

/-- `extractor.py` `ColumnInfo`: column metadata information. -/
structure ColumnInfo where
  name : String
  data_type : String
  nullable : Bool
  primary_key : Bool
  foreign_key : Option String := none
  deriving DecidableEq, Repr

/-- `extractor.py` `TableInfo`: table metadata information. -/
structure TableInfo where
  name : String
  columns : List ColumnInfo
  deriving DecidableEq, Repr

/-- `mapper.py` `MappingResult` (pydantic model for mapping results). -/
structure MappingResult where
  legacy_table : String
  legacy_column : String
  modern_table : String
  modern_column : String
  confidence_score : ℚ
  transformation_logic : String
  reasoning : String
  deriving DecidableEq, Repr

/-- `mapper.py` `SchemaMapping`: complete schema mapping result. -/
structure SchemaMapping where
  table_mappings : List MappingResult
  unmapped_items : List String
  deriving DecidableEq, Repr

/-- One entry of the list returned by `SchemaEmbedder.find_similar`
(`extractor.py`): the dict `{content, metadata: {table_name, column_name,
data_type, ...}, score}`, with the metadata flattened. -/
structure CandidateMatch where
  content : String
  table_name : String
  column_name : String
  data_type : String
  score : ℚ
  deriving DecidableEq, Repr

/-- The semantic-index oracle: `vectorstore.similarity_search_with_score`
composed with the dict conversion in `find_similar`.  Takes the query text
and `k`, returns the candidate list. -/
def VectorStore : Type := String → Nat → List CandidateMatch

/-- Python exception kinds that escape `_verify_mapping`'s
`except (json.JSONDecodeError, KeyError, ValueError)` clause. -/
inductive PyErr where
  | typeError
  | attributeError
  deriving DecidableEq, Repr

/-- Error raised by `SchemaEmbedder.find_similar` when the vector store is
not initialized (the spec's `NotReadyError`; a `ValueError` in the source). -/
inductive EmbedderError where
  | notReady
  deriving DecidableEq, Repr

/-! ### String helpers: Python `"." in s` and `s.split(".", 1)` -/

/-- Split a character list at the first `'.'`: `none` when no dot occurs. -/
def splitAtDot : List Char → Option (List Char × List Char)
  | [] => none
  | ch :: rest =>
    if ch = '.' then some ([], rest)
    else
      match splitAtDot rest with
      | some (a, b) => some (ch :: a, b)
      | none => none

/-- Python `"." in s` for a string `s`. -/
def strHasDot (s : String) : Bool := s.data.contains '.'

/-- Python `s.split(".", 1)` under the guard `"." in s`: the pair
(before first dot, rest).  When `s` has no dot the source never calls
this; we return `(s, "")` in that dead branch. -/
def pySplitDot1 (s : String) : String × String :=
  match splitAtDot s.data with
  | some (a, b) => (⟨a⟩, ⟨b⟩)
  | none => (s, "")

/-! ### JSON values, as produced by `json.loads` on the service response -/

/-- A parsed JSON value.  `obj` field lists have unique keys when produced
by `json.loads`; lookup takes the first match. -/
inductive Json where
  | null
  | bool (b : Bool)
  | num (q : ℚ)
  | str (s : String)
  | arr (elems : List Json)
  | obj (fields : List (String × Json))

/-- Python dict subscript `d[key]` on a JSON object's fields:
`none` models `KeyError`. -/
def jsonLookup : List (String × Json) → String → Option Json
  | [], _ => none
  | (k, v) :: rest, key => if k = key then some v else jsonLookup rest key

/-- Python `"." in v` for a JSON value `v`:
substring test on strings, element test on lists (only the string `"."`
compares equal to `"."`), key test on dicts, `TypeError` otherwise. -/
def pyContainsDot : Json → Except PyErr Bool
  | .str s => .ok (strHasDot s)
  | .arr elems => .ok (elems.any fun e => match e with | .str s => s = "." | _ => false)
  | .obj fields => .ok (fields.any fun f => f.1 = ".")
  | .null => .error .typeError
  | .bool _ => .error .typeError
  | .num _ => .error .typeError

/-- Decimal parsing used by Python `float(str)`; models the plain
`[sign] digits [. digits]` forms (no exponents/infinities, which the
service-response claims never exercise).  `none` models `ValueError`. -/
def digitsToNat (acc : Nat) : List Char → Nat
  | [] => acc
  | ch :: rest => digitsToNat (acc * 10 + (ch.toNat - '0'.toNat)) rest

/-- Parse an unsigned decimal split as integer part / fraction part. -/
def parseFloatAux (intPart fracPart : List Char) : Option ℚ :=
  if (intPart ++ fracPart).all Char.isDigit ∧ intPart ++ fracPart ≠ [] then
    some ((digitsToNat 0 intPart : ℚ) + (digitsToNat 0 fracPart : ℚ) / (10 : ℚ) ^ fracPart.length)
  else none

/-- Python `float(s)` on a string, for simple decimal forms. -/
def parseFloat? (s : String) : Option ℚ :=
  let core : List Char → Option ℚ := fun l =>
    match splitAtDot l with
    | some (a, b) => parseFloatAux a b
    | none => parseFloatAux l []
  match s.data with
  | '-' :: rest => (core rest).map (fun q => -q)
  | '+' :: rest => core rest
  | l => core l

/-- Python `float(v)` on a JSON value: `.ok none` models a caught
`ValueError`, `.error` an uncaught `TypeError`. -/
def pyFloat : Json → Except PyErr (Option ℚ)
  | .num q => .ok (some q)
  | .bool b => .ok (some (if b then 1 else 0))
  | .str s => .ok (parseFloat? s)
  | .null => .error .typeError
  | .arr _ => .error .typeError
  | .obj _ => .error .typeError

namespace SchemaEmbedder

/-- `extractor.py` `SchemaEmbedder.find_similar`: raises when the vector
store is not initialized, otherwise queries it. -/
def find_similar (vectorstore : Option VectorStore) (query : String) (k : Nat) :
    Except EmbedderError (List CandidateMatch) :=
  match vectorstore with
  | none => .error .notReady
  | some vs => .ok (vs query k)

end SchemaEmbedder

namespace IntelligentMapper

/-- `mapper.py` `IntelligentMapper._find_candidates`: returns `[]` when no
vector store is loaded, otherwise prefixes the framing text and queries
with width `k` (default 5).  The error branch is unreachable because
`find_similar` only fails on a missing vector store. -/
def find_candidates (vectorstore : Option VectorStore) (legacy_item : String)
    (k : Nat := 5) : List CandidateMatch :=
  if vectorstore.isNone then []
  else
    let search_query := "database column field " ++ legacy_item
    match SchemaEmbedder.find_similar vectorstore search_query k with
    | .ok results => results
    | .error _ => []

/-- `mapper.py` `IntelligentMapper._verify_mapping`, with the external
service's reply given as `response` (`none` models a reply that
`json.loads` rejects).  `.ok none` is the source's `return None` (the
caught `JSONDecodeError`/`KeyError`/`ValueError` cases and the
missing-dot case); `.error` is an exception escaping the `except` clause:
`TypeError` from subscripting a non-dict or from `"." in <non-iterable>`
or from `float(<non-convertible>)`, and `AttributeError` from `.split` on
a non-string that passed the `"." in` test.  Non-string
`transformation_logic`/`reasoning` fail pydantic validation, whose
`ValidationError` is a `ValueError` and is caught. -/
def verify_mapping (legacy_item : String) (candidates : List CandidateMatch)
    (response : Option Json) : Except PyErr (Option MappingResult) :=
  if candidates.isEmpty then .ok none
  else
    match response with
    | none => .ok none
    | some mapping_data =>
      match mapping_data with
      | .obj fields =>
        match jsonLookup fields "best_match" with
        | none => .ok none
        | some bm =>
          match pyContainsDot bm with
          | .error e => .error e
          | .ok false => .ok none
          | .ok true =>
            match bm with
            | .str bms =>
              let modern := pySplitDot1 bms
              let legacy :=
                if strHasDot legacy_item then pySplitDot1 legacy_item
                else ("unknown", legacy_item)
              match jsonLookup fields "confidence" with
              | none => .ok none
              | some cj =>
                match pyFloat cj with
                | .error e => .error e
                | .ok none => .ok none
                | .ok (some conf) =>
                  match jsonLookup fields "transformation_logic" with
                  | none => .ok none
                  | some tj =>
                    match jsonLookup fields "reasoning" with
                    | none => .ok none
                    | some rj =>
                      match tj, rj with
                      | .str tl, .str rs =>
                        .ok (some
                          { legacy_table := legacy.1
                            legacy_column := legacy.2
                            modern_table := modern.1
                            modern_column := modern.2
                            confidence_score := conf
                            transformation_logic := tl
                            reasoning := rs })
                      | _, _ => .ok none
            | _ => .error .attributeError
      | _ => .error .typeError

/-- The per-column body of `IntelligentMapper.map_schema`:
find candidates, then verify; append to accepted only when a result is
present with confidence above 0.5, otherwise record the item unmapped.
`respond` is the external reasoning-service oracle. -/
def process_column (vectorstore : Option VectorStore)
    (respond : String → List CandidateMatch → Option Json)
    (acc : List MappingResult × List String) (legacy_item : String) :
    Except PyErr (List MappingResult × List String) :=
  let candidates := find_candidates vectorstore legacy_item
  if candidates.isEmpty then .ok (acc.1, acc.2 ++ [legacy_item])
  else
    match verify_mapping legacy_item candidates (respond legacy_item candidates) with
    | .error e => .error e
    | .ok (some mapping) =>
      if mapping.confidence_score > mkRat 1 2 then .ok (acc.1 ++ [mapping], acc.2)
      else .ok (acc.1, acc.2 ++ [legacy_item])
    | .ok none => .ok (acc.1, acc.2 ++ [legacy_item])

/-- The inner `for column in table.columns` loop of `map_schema`. -/
def run_columns (vectorstore : Option VectorStore)
    (respond : String → List CandidateMatch → Option Json) (table_name : String) :
    List ColumnInfo → List MappingResult × List String →
    Except PyErr (List MappingResult × List String)
  | [], acc => .ok acc
  | c :: cs, acc =>
    match process_column vectorstore respond acc (table_name ++ "." ++ c.name) with
    | .error e => .error e
    | .ok acc2 => run_columns vectorstore respond table_name cs acc2

/-- The outer `for table in legacy_tables` loop of `map_schema`. -/
def run_tables (vectorstore : Option VectorStore)
    (respond : String → List CandidateMatch → Option Json) :
    List TableInfo → List MappingResult × List String →
    Except PyErr (List MappingResult × List String)
  | [], acc => .ok acc
  | t :: ts, acc =>
    match run_columns vectorstore respond t.name t.columns acc with
    | .error e => .error e
    | .ok acc2 => run_tables vectorstore respond ts acc2

/-- `mapper.py` `IntelligentMapper.map_schema`, over an already-extracted
legacy snapshot, parametrized by the vector-store and reasoning-service
oracles.  An exception escaping `_verify_mapping` aborts the run. -/
def map_schema (vectorstore : Option VectorStore)
    (respond : String → List CandidateMatch → Option Json)
    (tables : List TableInfo) : Except PyErr SchemaMapping :=
  match run_tables vectorstore respond tables ([], []) with
  | .error e => .error e
  | .ok (mappings, unmapped) => .ok ⟨mappings, unmapped⟩

/-- `mapper.py` `IntelligentMapper.generate_sql_script`, grouping step:
one fold step of building the insertion-ordered `table_mappings` dict. -/
def add_to_groups (groups : List (String × List MappingResult)) (m : MappingResult) :
    List (String × List MappingResult) :=
  if groups.any (fun p => p.1 == m.modern_table) then
    groups.map (fun p => if p.1 == m.modern_table then (p.1, p.2 ++ [m]) else p)
  else groups ++ [(m.modern_table, [m])]

/-- The insertion-ordered dict `table_mappings` of `generate_sql_script`. -/
def group_by_modern_table (mappings : List MappingResult) :
    List (String × List MappingResult) :=
  mappings.foldl add_to_groups []

/-- The f-string `script` emitted per target table in
`generate_sql_script`.  `FROM` names the legacy table of the first
mapping of the group (`table_mappings_list[0]`). -/
def insert_script (modern_table : String) (group : List MappingResult) : String :=
  "\n-- Mapping for " ++ modern_table ++ "\nINSERT INTO " ++ modern_table ++ " ("
    ++ String.intercalate ", " (group.map (fun m => m.modern_column)) ++ ")\nSELECT "
    ++ String.intercalate ", " (group.map (fun m => m.legacy_table ++ "." ++ m.legacy_column))
    ++ "\nFROM " ++ (match group with | [] => "" | m :: _ => m.legacy_table) ++ ";\n"

/-- `mapper.py` `IntelligentMapper.generate_sql_script`. -/
def generate_sql_script (mappings : List MappingResult) : String :=
  String.intercalate "\n"
    ((group_by_modern_table mappings).map (fun p => insert_script p.1 p.2))

end IntelligentMapper

namespace SimpleMapper

/-- `simple_mapper.py` `SimpleMapping`: simple mapping result without AI
verification. -/
structure SimpleMapping where
  legacy_table : String
  legacy_column : String
  modern_table : String
  modern_column : String
  confidence_score : ℚ
  reasoning : String
  deriving DecidableEq, Repr

/-- Python `d.get(key, default)` on a string dict. -/
def pyDictGet : List (String × String) → String → String → String
  | [], _, dflt => dflt
  | (k, v) :: rest, key, dflt => if k = key then v else pyDictGet rest key dflt

/-- Python `key in d` on a string dict. -/
def pyDictContains : List (String × String) → String → Bool
  | [], _ => false
  | (k, _) :: rest, key => k == key || pyDictContains rest key

/-- The shipped `self.column_mappings` rule table of `SimpleMapper`. -/
def column_mappings : List (String × String) :=
  [("c_nom", "full_name"),
   ("c_email", "email_address"),
   ("dt_nasc", "birth_date"),
   ("tel_cel", "phone_number"),
   ("end_rua", "street_address"),
   ("end_cep", "postal_code"),
   ("dt_vnd", "order_date"),
   ("vl_tot", "total_amount"),
   ("st_vnd", "order_status"),
   ("nm_prod", "product_name"),
   ("desc_prod", "product_description"),
   ("preco_unit", "unit_price"),
   ("qtd_est", "stock_quantity")]

/-- The shipped `self.table_mappings` rule table of `SimpleMapper`. -/
def table_mappings : List (String × String) :=
  [("tb_cli_reg", "customers"),
   ("tb_vendas_hdr", "orders"),
   ("tb_prod_cat", "products")]

/-- The per-column body of `SimpleMapper.map_schema`: the deterministic
rule-table resolution of one legacy column. -/
def resolve_column (table_rules column_rules : List (String × String))
    (table_name column_name : String) : SimpleMapping :=
  let modern_table := pyDictGet table_rules table_name table_name
  let modern_column := pyDictGet column_rules column_name column_name
  let confidence : ℚ := if pyDictContains column_rules column_name then mkRat 9 10 else mkRat 3 10
  { legacy_table := table_name
    legacy_column := column_name
    modern_table := modern_table
    modern_column := modern_column
    confidence_score := confidence
    reasoning := "Mapped \x27" ++ column_name ++ "\x27 to \x27" ++ modern_column
      ++ "\x27 based on naming patterns" }

/-- `simple_mapper.py` `SimpleMapper.map_schema`, over an already-extracted
snapshot, parametrized by the rule tables (the instance fields). -/
def map_schema (table_rules column_rules : List (String × String))
    (tables : List TableInfo) : List SimpleMapping :=
  tables.foldl
    (fun acc t =>
      t.columns.foldl
        (fun acc2 c => acc2 ++ [resolve_column table_rules column_rules t.name c.name])
        acc)
    []

end SimpleMapper

/-! ### Verification layer: helper facts about the split helpers -/

theorem splitAtDot_eq_some {l a b : List Char} (h : splitAtDot l = some (a, b)) :
    l = a ++ '.' :: b := by
  induction l generalizing a b with
  | nil => simp [splitAtDot] at h
  | cons ch rest ih =>
    rw [splitAtDot] at h
    split at h
    · rename_i hc
      simp only [Option.some.injEq, Prod.mk.injEq] at h
      obtain ⟨rfl, rfl⟩ := h
      simp [hc]
    · cases hsp : splitAtDot rest with
      | none => rw [hsp] at h; simp at h
      | some p =>
        obtain ⟨a2, b2⟩ := p
        rw [hsp] at h
        simp only [Option.some.injEq, Prod.mk.injEq] at h
        obtain ⟨rfl, rfl⟩ := h
        simp [ih hsp]

theorem splitAtDot_append {t : List Char} (ht : '.' ∉ t) (c : List Char) :
    splitAtDot (t ++ '.' :: c) = some (t, c) := by
  induction t with
  | nil => simp [splitAtDot]
  | cons ch rest ih =>
    have hch : ¬ch = '.' := by
      rintro rfl; exact ht (List.mem_cons_self _ _)
    rw [List.cons_append, splitAtDot, if_neg hch,
      ih (fun hm => ht (List.mem_cons_of_mem _ hm))]

theorem splitAtDot_isSome_of_mem {l : List Char} (h : '.' ∈ l) :
    ∃ a b, splitAtDot l = some (a, b) := by
  induction l with
  | nil => simp at h
  | cons ch rest ih =>
    by_cases hc : ch = '.'
    · exact ⟨[], rest, by rw [splitAtDot, if_pos hc]⟩
    · have hr : '.' ∈ rest := by
        cases List.mem_cons.mp h with
        | inl h0 => exact absurd h0.symm hc
        | inr h0 => exact h0
      obtain ⟨a, b, hab⟩ := ih hr
      exact ⟨ch :: a, b, by rw [splitAtDot, if_neg hc, hab]⟩

theorem strHasDot_iff {s : String} : strHasDot s = true ↔ '.' ∈ s.data := by
  simp [strHasDot, List.contains]

/-- The data of `t ++ "." ++ c` is the concatenation around a dot. -/
theorem data_render (t c : String) : (t ++ "." ++ c).data = t.data ++ '.' :: c.data := by
  simp [String.data_append, List.append_assoc]

theorem strHasDot_render (t c : String) : strHasDot (t ++ "." ++ c) = true := by
  rw [strHasDot_iff, data_render]
  exact List.mem_append_right _ (List.mem_cons_self _ _)

theorem pySplitDot1_render {t : String} (ht : strHasDot t = false) (c : String) :
    pySplitDot1 (t ++ "." ++ c) = (t, c) := by
  have hnot : '.' ∉ t.data := fun hm =>
    by rw [strHasDot_iff.mpr hm] at ht; cases ht
  rw [pySplitDot1, data_render, splitAtDot_append hnot]

theorem render_pySplitDot1 {s : String} (hs : strHasDot s = true) :
    (pySplitDot1 s).1 ++ "." ++ (pySplitDot1 s).2 = s := by
  obtain ⟨a, b, hab⟩ := splitAtDot_isSome_of_mem (strHasDot_iff.mp hs)
  have hdata : s.data = a ++ '.' :: b := splitAtDot_eq_some hab
  rw [pySplitDot1, hab]
  exact String.ext (by rw [data_render]; exact hdata.symm)

/-! ### Verification layer: per-item outcome of the mapping engine -/

/-- Specification device: the outcome of `map_schema`'s loop body for one
legacy item — `.ok (some m)` when the item is accepted with mapping `m`,
`.ok none` when it goes to `unmapped_items`, `.error` when an exception
escapes `_verify_mapping`. -/
def item_verdict (vectorstore : Option VectorStore)
    (respond : String → List CandidateMatch → Option Json) (item : String) :
    Except PyErr (Option MappingResult) :=
  let candidates := IntelligentMapper.find_candidates vectorstore item
  if candidates.isEmpty then .ok none
  else
    match IntelligentMapper.verify_mapping item candidates (respond item candidates) with
    | .error e => .error e
    | .ok (some m) => if m.confidence_score > mkRat 1 2 then .ok (some m) else .ok none
    | .ok none => .ok none

/-- The accepted mapping an item contributes, when its processing does not
raise (`none` both for unmapped items and for the unreachable-under-`.ok`
error case). -/
def accept_opt (vectorstore : Option VectorStore)
    (respond : String → List CandidateMatch → Option Json) (item : String) :
    Option MappingResult :=
  match item_verdict vectorstore respond item with
  | .ok (some m) => some m
  | _ => none

/-- Specification device: the engine loop over a flat list of
`table.column` items. -/
def run_items (vectorstore : Option VectorStore)
    (respond : String → List CandidateMatch → Option Json) :
    List String → List MappingResult × List String →
    Except PyErr (List MappingResult × List String)
  | [], acc => .ok acc
  | i :: rest, acc =>
    match IntelligentMapper.process_column vectorstore respond acc i with
    | .error e => .error e
    | .ok acc2 => run_items vectorstore respond rest acc2

/-- All `table.column` items of a snapshot, in table-declaration then
column-declaration order. -/
def all_items : List TableInfo → List String
  | [] => []
  | t :: ts => t.columns.map (fun c => t.name ++ "." ++ c.name) ++ all_items ts

theorem process_column_eq_verdict (vs : Option VectorStore)
    (respond : String → List CandidateMatch → Option Json)
    (acc : List MappingResult × List String) (item : String) :
    IntelligentMapper.process_column vs respond acc item =
      match item_verdict vs respond item with
      | .error e => .error e
      | .ok (some m) => .ok (acc.1 ++ [m], acc.2)
      | .ok none => .ok (acc.1, acc.2 ++ [item]) := by
  simp only [IntelligentMapper.process_column, item_verdict]
  cases he : (IntelligentMapper.find_candidates vs item).isEmpty with
  | true => simp [he]
  | false =>
    simp only [he, Bool.false_eq_true, if_false]
    cases hv : IntelligentMapper.verify_mapping item (IntelligentMapper.find_candidates vs item)
        (respond item (IntelligentMapper.find_candidates vs item)) with
    | error e => rfl
    | ok o =>
      cases o with
      | none => rfl
      | some m =>
        by_cases hc : m.confidence_score > mkRat 1 2
        · simp [hc]
        · simp [hc]

theorem run_columns_eq_run_items (vs : Option VectorStore)
    (respond : String → List CandidateMatch → Option Json) (tname : String)
    (cols : List ColumnInfo) (acc : List MappingResult × List String) :
    IntelligentMapper.run_columns vs respond tname cols acc =
      run_items vs respond (cols.map (fun c => tname ++ "." ++ c.name)) acc := by
  induction cols generalizing acc with
  | nil => rfl
  | cons c cs ih =>
    rw [IntelligentMapper.run_columns, List.map_cons, run_items]
    cases IntelligentMapper.process_column vs respond acc (tname ++ "." ++ c.name) with
    | error e => rfl
    | ok acc2 => exact ih acc2

theorem run_items_append (vs : Option VectorStore)
    (respond : String → List CandidateMatch → Option Json)
    (xs ys : List String) (acc : List MappingResult × List String) :
    run_items vs respond (xs ++ ys) acc =
      match run_items vs respond xs acc with
      | .error e => .error e
      | .ok acc2 => run_items vs respond ys acc2 := by
  induction xs generalizing acc with
  | nil => rfl
  | cons x xs ih =>
    rw [List.cons_append, run_items, run_items]
    cases IntelligentMapper.process_column vs respond acc x with
    | error e => rfl
    | ok acc2 => exact ih acc2

theorem run_tables_eq_run_items (vs : Option VectorStore)
    (respond : String → List CandidateMatch → Option Json)
    (tables : List TableInfo) (acc : List MappingResult × List String) :
    IntelligentMapper.run_tables vs respond tables acc =
      run_items vs respond (all_items tables) acc := by
  induction tables generalizing acc with
  | nil => rfl
  | cons t ts ih =>
    rw [IntelligentMapper.run_tables, all_items, run_items_append,
      ← run_columns_eq_run_items]
    cases IntelligentMapper.run_columns vs respond t.name t.columns acc with
    | error e => rfl
    | ok acc2 => exact ih acc2

theorem run_items_ok (vs : Option VectorStore)
    (respond : String → List CandidateMatch → Option Json)
    (items : List String) (acc : List MappingResult × List String)
    (ms : List MappingResult) (us : List String)
    (h : run_items vs respond items acc = .ok (ms, us)) :
    ms = acc.1 ++ items.filterMap (accept_opt vs respond) ∧
    us = acc.2 ++ items.filter (fun i => (accept_opt vs respond i).isNone) := by
  induction items generalizing acc with
  | nil =>
    rw [run_items] at h
    simp only [Except.ok.injEq, Prod.mk.injEq] at h
    obtain ⟨rfl, rfl⟩ := h
    simp
  | cons i rest ih =>
    rw [run_items, process_column_eq_verdict] at h
    cases hv : item_verdict vs respond i with
    | error e => rw [hv] at h; simp at h
    | ok o =>
      rw [hv] at h
      cases o with
      | some m =>
        have ha : accept_opt vs respond i = some m := by
          rw [accept_opt, hv]
        obtain ⟨h1, h2⟩ := ih _ h
        refine ⟨?_, ?_⟩
        · rw [h1, List.filterMap_cons, ha]
          simp
        · rw [h2, List.filter_cons, ha]
          simp
      | none =>
        have ha : accept_opt vs respond i = none := by
          rw [accept_opt, hv]
        obtain ⟨h1, h2⟩ := ih _ h
        refine ⟨?_, ?_⟩
        · rw [h1, List.filterMap_cons, ha]
        · rw [h2, List.filter_cons, ha]
          simp

/-- Characterization of a completed run of `IntelligentMapper.map_schema`:
the accepted list collects, in declaration order, the per-item accepted
mappings, and the unmapped list collects exactly the remaining items. -/
theorem map_schema_ok_char (vs : Option VectorStore)
    (respond : String → List CandidateMatch → Option Json)
    (tables : List TableInfo) (r : SchemaMapping)
    (h : IntelligentMapper.map_schema vs respond tables = .ok r) :
    r.table_mappings = (all_items tables).filterMap (accept_opt vs respond) ∧
    r.unmapped_items =
      (all_items tables).filter (fun i => (accept_opt vs respond i).isNone) := by
  rw [IntelligentMapper.map_schema, run_tables_eq_run_items] at h
  cases hrun : run_items vs respond (all_items tables) ([], []) with
  | error e => rw [hrun] at h; simp at h
  | ok acc2 =>
    obtain ⟨ms, us⟩ := acc2
    rw [hrun] at h
    simp only [Except.ok.injEq] at h
    obtain ⟨h1, h2⟩ := run_items_ok vs respond (all_items tables) ([], []) ms us hrun
    rw [← h]
    simp only [List.nil_append] at h1 h2
    exact ⟨h1, h2⟩

/-- A successful `_verify_mapping` takes its legacy pair from splitting
the legacy item at its first dot (with the `"unknown"` sentinel when the
item has no dot). -/
theorem verify_mapping_legacy {item : String} {cands : List CandidateMatch}
    {resp : Option Json} {m : MappingResult}
    (h : IntelligentMapper.verify_mapping item cands resp = .ok (some m)) :
    (m.legacy_table, m.legacy_column) =
      if strHasDot item then pySplitDot1 item else ("unknown", item) := by
  simp only [IntelligentMapper.verify_mapping] at h
  repeat' split at h
  all_goals simp at h
  all_goals subst h
  all_goals simp [*]

/-- Inversion of an accepted item: the verifier really returned that
mapping on that item's candidates, and its confidence is above 0.5. -/
theorem accept_opt_eq_some {vs : Option VectorStore}
    {respond : String → List CandidateMatch → Option Json}
    {item : String} {m : MappingResult}
    (h : accept_opt vs respond item = some m) :
    IntelligentMapper.verify_mapping item (IntelligentMapper.find_candidates vs item)
        (respond item (IntelligentMapper.find_candidates vs item)) = .ok (some m) ∧
    mkRat 1 2 < m.confidence_score := by
  rw [accept_opt] at h
  cases hv : item_verdict vs respond item with
  | error e => rw [hv] at h; simp at h
  | ok o =>
    rw [hv] at h
    cases o with
    | none => simp at h
    | some m0 =>
      simp only [Option.some.injEq] at h
      subst h
      rw [item_verdict] at hv
      split at hv
      · simp at hv
      · split at hv
        · simp at hv
        · rename_i m1 heq
          split at hv
          · rename_i hc
            simp only [Except.ok.injEq, Option.some.injEq] at hv
            subst hv
            exact ⟨heq, hc⟩
          · simp at hv
        · simp at hv

theorem accept_opt_of_accepted {vs : Option VectorStore}
    {respond : String → List CandidateMatch → Option Json}
    {item : String} {m : MappingResult}
    (hne : (IntelligentMapper.find_candidates vs item).isEmpty = false)
    (hv : IntelligentMapper.verify_mapping item (IntelligentMapper.find_candidates vs item)
        (respond item (IntelligentMapper.find_candidates vs item)) = .ok (some m))
    (hc : mkRat 1 2 < m.confidence_score) :
    accept_opt vs respond item = some m := by
  have hverd : item_verdict vs respond item = .ok (some m) := by
    rw [item_verdict, if_neg (by simp [hne]), hv]
    exact if_pos hc
  rw [accept_opt, hverd]

theorem item_verdict_of_low {vs : Option VectorStore}
    {respond : String → List CandidateMatch → Option Json}
    {item : String} {m : MappingResult}
    (hv : IntelligentMapper.verify_mapping item (IntelligentMapper.find_candidates vs item)
        (respond item (IntelligentMapper.find_candidates vs item)) = .ok (some m))
    (hc : m.confidence_score ≤ mkRat 1 2) :
    item_verdict vs respond item = .ok none := by
  rw [item_verdict]
  split
  · rfl
  · rw [hv]
    exact if_neg (not_lt.mpr hc)

theorem accept_opt_of_low {vs : Option VectorStore}
    {respond : String → List CandidateMatch → Option Json}
    {item : String} {m : MappingResult}
    (hv : IntelligentMapper.verify_mapping item (IntelligentMapper.find_candidates vs item)
        (respond item (IntelligentMapper.find_candidates vs item)) = .ok (some m))
    (hc : m.confidence_score ≤ mkRat 1 2) :
    accept_opt vs respond item = none := by
  rw [accept_opt, item_verdict_of_low hv hc]

theorem accept_opt_of_none {vs : Option VectorStore}
    {respond : String → List CandidateMatch → Option Json} {item : String}
    (hv : IntelligentMapper.verify_mapping item (IntelligentMapper.find_candidates vs item)
        (respond item (IntelligentMapper.find_candidates vs item)) = .ok none) :
    accept_opt vs respond item = none := by
  have hverd : item_verdict vs respond item = .ok none := by
    rw [item_verdict]
    split
    · rfl
    · rw [hv]
  rw [accept_opt, hverd]

theorem mem_all_items {i : String} {tables : List TableInfo} :
    i ∈ all_items tables ↔
      ∃ t ∈ tables, ∃ c ∈ t.columns, i = t.name ++ "." ++ c.name := by
  induction tables with
  | nil => simp [all_items]
  | cons t ts ih =>
    rw [all_items, List.mem_append, ih]
    constructor
    · rintro (hm | ⟨t2, ht2, c, hc, rfl⟩)
      · obtain ⟨c, hc, hi⟩ := List.mem_map.mp hm
        exact ⟨t, List.mem_cons_self _ _, c, hc, hi.symm⟩
      · exact ⟨t2, List.mem_cons_of_mem _ ht2, c, hc, rfl⟩
    · rintro ⟨t2, ht2, c, hc, rfl⟩
      cases List.mem_cons.mp ht2 with
      | inl h0 => subst h0; exact Or.inl (List.mem_map.mpr ⟨c, hc, rfl⟩)
      | inr h0 => exact Or.inr ⟨t2, h0, c, hc, rfl⟩

theorem all_items_has_dot {i : String} {tables : List TableInfo}
    (h : i ∈ all_items tables) : strHasDot i = true := by
  obtain ⟨t, _, c, _, rfl⟩ := mem_all_items.mp h
  exact strHasDot_render t.name c.name

/-- The `table.column` string of an accepted mapping is the item the
engine was processing when it accepted it. -/
theorem accept_opt_render {vs : Option VectorStore}
    {respond : String → List CandidateMatch → Option Json}
    {item : String} {m : MappingResult}
    (h : accept_opt vs respond item = some m) (hd : strHasDot item = true) :
    m.legacy_table ++ "." ++ m.legacy_column = item := by
  obtain ⟨hv, _⟩ := accept_opt_eq_some h
  have hp := verify_mapping_legacy hv
  rw [if_pos hd] at hp
  have h1 : m.legacy_table = (pySplitDot1 item).1 := by
    rw [← hp]
  have h2 : m.legacy_column = (pySplitDot1 item).2 := by
    rw [← hp]
  rw [h1, h2, render_pySplitDot1 hd]

/-- Counting under a uniqueness condition: if at most the element `x` can
satisfy `R` in a duplicate-free list containing `x`, the `R`-count of the
list is decided by `R x`. -/
theorem countP_eq_of_unique {α : Type} {l : List α} {R : α → Bool} {x : α}
    (hnd : l.Nodup) (hx : x ∈ l) (huniq : ∀ a ∈ l, R a = true → a = x) :
    l.countP R = if R x then 1 else 0 := by
  induction l with
  | nil => cases hx
  | cons a l ih =>
    rw [List.countP_cons]
    have hna := (List.nodup_cons.mp hnd).1
    have hnd2 := (List.nodup_cons.mp hnd).2
    cases List.mem_cons.mp hx with
    | inl hxa =>
      subst hxa
      have hzero : l.countP R = 0 := by
        apply List.countP_eq_zero.mpr
        intro b hb hRb
        exact hna ((huniq b (List.mem_cons_of_mem _ hb) hRb) ▸ hb)
      rw [hzero]
      simp
    | inr hxl =>
      have hRa : ¬R a = true := fun hRa =>
        hna ((huniq a (List.mem_cons_self _ _) hRa) ▸ hxl)
      rw [ih hnd2 hxl (fun b hb hRb => huniq b (List.mem_cons_of_mem _ hb) hRb)]
      simp [hRa]

/-- **C1.** After one completed run of `IntelligentMapper.map_schema` over
a legacy snapshot whose qualified `table.column` names are pairwise
distinct and whose table names contain no `.`, every column of every
table of the snapshot appears in exactly one of the accepted-mappings
list (as the pair `legacy_table`/`legacy_column`) and the
`unmapped_items` list (as the string `table.column`): the two occurrence
counts sum to exactly one, so no column is dropped and none is counted
twice.  The run is quantified over arbitrary vector-store and
reasoning-service behaviour. -/
theorem c1_every_column_partitioned (vs : Option VectorStore)
    (respond : String → List CandidateMatch → Option Json)
    (tables : List TableInfo) (r : SchemaMapping)
    (hrun : IntelligentMapper.map_schema vs respond tables = .ok r)
    (hnodup : (all_items tables).Nodup)
    (hdots : ∀ t ∈ tables, strHasDot t.name = false) :
    ∀ t ∈ tables, ∀ c ∈ t.columns,
      r.table_mappings.countP
          (fun m => m.legacy_table == t.name && m.legacy_column == c.name)
        + r.unmapped_items.count (t.name ++ "." ++ c.name) = 1 := by
  obtain ⟨hms, hus⟩ := map_schema_ok_char vs respond tables r hrun
  intro t ht c hc
  have hx : t.name ++ "." ++ c.name ∈ all_items tables :=
    mem_all_items.mpr ⟨t, ht, c, hc, rfl⟩
  have hacc : r.table_mappings.countP
      (fun m => m.legacy_table == t.name && m.legacy_column == c.name) =
      if ((accept_opt vs respond (t.name ++ "." ++ c.name)).map
            (fun m => m.legacy_table == t.name && m.legacy_column == c.name)).getD false
      then 1 else 0 := by
    rw [hms, List.countP_filterMap]
    apply countP_eq_of_unique hnodup hx
    intro i hi hR
    cases hA : accept_opt vs respond i with
    | none => rw [hA] at hR; simp at hR
    | some m =>
      rw [hA] at hR
      simp only [Option.map_some', Option.getD_some, Bool.and_eq_true, beq_iff_eq] at hR
      have hrender := accept_opt_render hA (all_items_has_dot hi)
      rw [← hrender, hR.1, hR.2]
  have hunm : r.unmapped_items.count (t.name ++ "." ++ c.name) =
      if (accept_opt vs respond (t.name ++ "." ++ c.name)).isNone then 1 else 0 := by
    rw [hus]
    by_cases hA : (accept_opt vs respond (t.name ++ "." ++ c.name)).isNone = true
    · rw [if_pos hA,
        show List.count (t.name ++ "." ++ c.name)
            (List.filter (fun i => (accept_opt vs respond i).isNone) (all_items tables))
          = List.count (t.name ++ "." ++ c.name) (all_items tables)
          from List.count_filter hA]
      exact List.count_eq_one_of_mem hnodup hx
    · rw [if_neg hA]
      apply List.count_eq_zero.mpr
      intro hmem
      exact hA (List.mem_filter.mp hmem).2
  rw [hacc, hunm]
  cases hA : accept_opt vs respond (t.name ++ "." ++ c.name) with
  | none => simp [hA]
  | some m =>
    obtain ⟨hv, _⟩ := accept_opt_eq_some hA
    have hp := verify_mapping_legacy hv
    rw [if_pos (all_items_has_dot hx)] at hp
    have hpair : (m.legacy_table, m.legacy_column) = (t.name, c.name) := by
      rw [hp, pySplitDot1_render (hdots t ht) c.name]
    have h1 : m.legacy_table = t.name := congrArg Prod.fst hpair
    have h2 : m.legacy_column = c.name := congrArg Prod.snd hpair
    simp [h1, h2]

/-! ### Concrete inputs used by the witnesses -/

/-- A concrete candidate document, as the index oracle returns it. -/
def cand_w : CandidateMatch :=
  { content := "Column: full_name in table customers - Type: TEXT"
    table_name := "customers"
    column_name := "full_name"
    data_type := "TEXT"
    score := mkRat 1 5 }

/-- A concrete loaded vector store returning one candidate for any query. -/
def vs_w : Option VectorStore := some (fun _query _k => [cand_w])

/-- A concrete reasoning-service oracle: confident (0.85) for
`tb_cli_reg.c_nom`, unconfident (0.2) for everything else. -/
def respond_w : String → List CandidateMatch → Option Json := fun item _cands =>
  if item = "tb_cli_reg.c_nom" then
    some (Json.obj
      [("best_match", Json.str "customers.full_name"),
       ("confidence", Json.num (mkRat 17 20)),
       ("transformation_logic", Json.str "Direct mapping"),
       ("reasoning", Json.str "Same meaning")])
  else
    some (Json.obj
      [("best_match", Json.str "customers.email_address"),
       ("confidence", Json.num (mkRat 1 5)),
       ("transformation_logic", Json.str "Direct mapping"),
       ("reasoning", Json.str "Weak match")])

/-- A concrete legacy column. -/
def col_nom : ColumnInfo :=
  { name := "c_nom", data_type := "TEXT", nullable := true, primary_key := false }

/-- A second concrete legacy column, which stays unmapped. -/
def col_email : ColumnInfo :=
  { name := "c_email", data_type := "TEXT", nullable := true, primary_key := false }

/-- A concrete legacy table. -/
def table_cli : TableInfo := { name := "tb_cli_reg", columns := [col_nom, col_email] }

/-- A concrete legacy snapshot. -/
def tables_w : List TableInfo := [table_cli]

/-- The mapping the engine accepts on the concrete inputs. -/
def accepted_w : MappingResult :=
  { legacy_table := "tb_cli_reg", legacy_column := "c_nom"
    modern_table := "customers", modern_column := "full_name"
    confidence_score := mkRat 17 20
    transformation_logic := "Direct mapping", reasoning := "Same meaning" }

/-- The full result of the engine on the concrete inputs. -/
def result_w : SchemaMapping :=
  { table_mappings := [accepted_w], unmapped_items := ["tb_cli_reg.c_email"] }

/-- Witness for C1 at concrete inputs: the run completes, the
side conditions hold, and the column `tb_cli_reg.c_nom` is counted
exactly once across the two output lists. -/
theorem c1_witness :
    IntelligentMapper.map_schema vs_w respond_w tables_w = .ok result_w ∧
    (all_items tables_w).Nodup ∧
    strHasDot table_cli.name = false ∧
    result_w.table_mappings.countP
        (fun m => m.legacy_table == table_cli.name && m.legacy_column == col_nom.name)
      + result_w.unmapped_items.count (table_cli.name ++ "." ++ col_nom.name) = 1 := by
  refine ⟨rfl, by decide, by decide, ?_⟩
  exact c1_every_column_partitioned vs_w respond_w tables_w result_w rfl (by decide)
    (by decide) table_cli (by decide) col_nom (by decide)

/-- **C3.** In a completed run, a column whose resolver produced a
`MappingResult` is appended to the accepted mappings iff its confidence
is strictly greater than 0.5 (every accepted mapping has confidence
above 0.5; a produced result below or at the threshold sends the
column's `table.column` string to `unmapped_items`), and a column with
no result likewise lands in `unmapped_items`. -/
theorem c3_confidence_threshold (vs : Option VectorStore)
    (respond : String → List CandidateMatch → Option Json)
    (tables : List TableInfo) (r : SchemaMapping)
    (hrun : IntelligentMapper.map_schema vs respond tables = .ok r) :
    (∀ m ∈ r.table_mappings, (0.5 : ℚ) < m.confidence_score) ∧
    ∀ t ∈ tables, ∀ c ∈ t.columns,
      (∀ m, IntelligentMapper.verify_mapping (t.name ++ "." ++ c.name)
              (IntelligentMapper.find_candidates vs (t.name ++ "." ++ c.name))
              (respond (t.name ++ "." ++ c.name)
                (IntelligentMapper.find_candidates vs (t.name ++ "." ++ c.name)))
            = .ok (some m) →
          ((0.5 : ℚ) < m.confidence_score → m ∈ r.table_mappings) ∧
          (m.confidence_score ≤ (0.5 : ℚ) →
            t.name ++ "." ++ c.name ∈ r.unmapped_items)) ∧
      (IntelligentMapper.verify_mapping (t.name ++ "." ++ c.name)
            (IntelligentMapper.find_candidates vs (t.name ++ "." ++ c.name))
            (respond (t.name ++ "." ++ c.name)
              (IntelligentMapper.find_candidates vs (t.name ++ "." ++ c.name)))
          = .ok none →
        t.name ++ "." ++ c.name ∈ r.unmapped_items) := by
  obtain ⟨hms, hus⟩ := map_schema_ok_char vs respond tables r hrun
  have hhalf : (0.5 : ℚ) = mkRat 1 2 := by norm_num
  constructor
  · intro m hm
    rw [hms] at hm
    obtain ⟨i, _, hAi⟩ := List.mem_filterMap.mp hm
    rw [hhalf]
    exact (accept_opt_eq_some hAi).2
  · intro t ht c hc
    have hx : t.name ++ "." ++ c.name ∈ all_items tables :=
      mem_all_items.mpr ⟨t, ht, c, hc, rfl⟩
    refine ⟨?_, ?_⟩
    · intro m hv
      have hne : (IntelligentMapper.find_candidates vs
          (t.name ++ "." ++ c.name)).isEmpty = false := by
        cases he : (IntelligentMapper.find_candidates vs
            (t.name ++ "." ++ c.name)).isEmpty with
        | false => rfl
        | true =>
          simp [IntelligentMapper.verify_mapping, he] at hv
      refine ⟨fun hconf => ?_, fun hconf => ?_⟩
      · rw [hms]
        exact List.mem_filterMap.mpr
          ⟨_, hx, accept_opt_of_accepted hne hv (hhalf ▸ hconf)⟩
      · rw [hus]
        exact List.mem_filter.mpr
          ⟨hx, by simp [accept_opt_of_low hv (hhalf ▸ hconf)]⟩
    · intro hv
      rw [hus]
      exact List.mem_filter.mpr ⟨hx, by simp [accept_opt_of_none hv]⟩

/-- Witness for C3 at concrete inputs: on the completed concrete run, the
verifier produced a result of confidence 0.85 for `tb_cli_reg.c_nom`, and
that result is in the accepted list. -/
theorem c3_witness :
    IntelligentMapper.map_schema vs_w respond_w tables_w = .ok result_w ∧
    IntelligentMapper.verify_mapping (table_cli.name ++ "." ++ col_nom.name)
        (IntelligentMapper.find_candidates vs_w (table_cli.name ++ "." ++ col_nom.name))
        (respond_w (table_cli.name ++ "." ++ col_nom.name)
          (IntelligentMapper.find_candidates vs_w (table_cli.name ++ "." ++ col_nom.name)))
      = .ok (some accepted_w) ∧
    (0.5 : ℚ) < accepted_w.confidence_score ∧
    accepted_w ∈ result_w.table_mappings := by
  refine ⟨rfl, rfl, by norm_num [accepted_w], ?_⟩
  exact (((c3_confidence_threshold vs_w respond_w tables_w result_w rfl).2
    table_cli (by decide) col_nom (by decide)).1 accepted_w rfl).1
    (by norm_num [accepted_w])

/-! ### Rule-table resolver claims -/

theorem pyDictGet_eq_default {d : List (String × String)} {k : String}
    (h : SimpleMapper.pyDictContains d k = false) (dflt : String) :
    SimpleMapper.pyDictGet d k dflt = dflt := by
  induction d with
  | nil => rfl
  | cons p rest ih =>
    obtain ⟨pk, pv⟩ := p
    rw [SimpleMapper.pyDictContains] at h
    simp only [Bool.or_eq_false_iff, beq_eq_false_iff_ne] at h
    rw [SimpleMapper.pyDictGet, if_neg h.1, ih h.2]

/-- **C2.** The rule-based resolver is the deterministic dict lookup the
spec describes: `modern_table` and `modern_column` are `get`-with-default
lookups, the confidence is exactly 0.9 when the column name is a rule key
and exactly 0.3 otherwise, and the shipped rule tables send
`tb_cli_reg.c_nom` to `(customers, full_name)` at confidence 0.9. -/
theorem c2_rule_resolver_deterministic
    (table_rules column_rules : List (String × String)) (t c : String) :
    (SimpleMapper.resolve_column table_rules column_rules t c).legacy_table = t ∧
    (SimpleMapper.resolve_column table_rules column_rules t c).legacy_column = c ∧
    (SimpleMapper.resolve_column table_rules column_rules t c).modern_table
      = SimpleMapper.pyDictGet table_rules t t ∧
    (SimpleMapper.resolve_column table_rules column_rules t c).modern_column
      = SimpleMapper.pyDictGet column_rules c c ∧
    (SimpleMapper.pyDictContains column_rules c = true →
      (SimpleMapper.resolve_column table_rules column_rules t c).confidence_score
        = (0.9 : ℚ)) ∧
    (SimpleMapper.pyDictContains column_rules c = false →
      (SimpleMapper.resolve_column table_rules column_rules t c).confidence_score
        = (0.3 : ℚ)) ∧
    (SimpleMapper.resolve_column SimpleMapper.table_mappings SimpleMapper.column_mappings
        "tb_cli_reg" "c_nom").modern_table = "customers" ∧
    (SimpleMapper.resolve_column SimpleMapper.table_mappings SimpleMapper.column_mappings
        "tb_cli_reg" "c_nom").modern_column = "full_name" ∧
    (SimpleMapper.resolve_column SimpleMapper.table_mappings SimpleMapper.column_mappings
        "tb_cli_reg" "c_nom").legacy_table = "tb_cli_reg" ∧
    (SimpleMapper.resolve_column SimpleMapper.table_mappings SimpleMapper.column_mappings
        "tb_cli_reg" "c_nom").legacy_column = "c_nom" ∧
    (SimpleMapper.resolve_column SimpleMapper.table_mappings SimpleMapper.column_mappings
        "tb_cli_reg" "c_nom").confidence_score = (0.9 : ℚ) := by
  refine ⟨rfl, rfl, rfl, rfl, ?_, ?_, by decide, by decide, by decide, by decide, ?_⟩
  · intro h
    show (if SimpleMapper.pyDictContains column_rules c then mkRat 9 10 else mkRat 3 10)
      = (0.9 : ℚ)
    rw [if_pos h]
    norm_num
  · intro h
    show (if SimpleMapper.pyDictContains column_rules c then mkRat 9 10 else mkRat 3 10)
      = (0.3 : ℚ)
    rw [h]
    norm_num
  · show (if SimpleMapper.pyDictContains SimpleMapper.column_mappings "c_nom"
        then mkRat 9 10 else mkRat 3 10) = (0.9 : ℚ)
    rw [if_pos (by decide)]
    norm_num

/-- Witness for C2: `c_nom` is a key of the shipped column rules, and the
resolver assigns it confidence exactly 0.9. -/
theorem c2_witness :
    SimpleMapper.pyDictContains SimpleMapper.column_mappings "c_nom" = true ∧
    (SimpleMapper.resolve_column SimpleMapper.table_mappings SimpleMapper.column_mappings
        "tb_cli_reg" "c_nom").confidence_score = (0.9 : ℚ) :=
  ⟨by decide,
   (c2_rule_resolver_deterministic SimpleMapper.table_mappings SimpleMapper.column_mappings
     "tb_cli_reg" "c_nom").2.2.2.2.1 (by decide)⟩

/-- Counterexample for C6: under the shipped rule tables,
`tb_prod_cat.qtd_est` is NOT an identity fallback — `qtd_est` is a rule
key (`stock_quantity`) and `tb_prod_cat` maps to `products`, so the
resolver returns `(tb_prod_cat, qtd_est, products, stock_quantity, 0.9)`,
not the `(tb_prod_cat, qtd_est, tb_prod_cat, qtd_est, 0.3)` the claim
asserts. -/
theorem c6_counterexample :
    (SimpleMapper.resolve_column SimpleMapper.table_mappings SimpleMapper.column_mappings
        "tb_prod_cat" "qtd_est").modern_table = "products" ∧
    (SimpleMapper.resolve_column SimpleMapper.table_mappings SimpleMapper.column_mappings
        "tb_prod_cat" "qtd_est").modern_column = "stock_quantity" ∧
    (SimpleMapper.resolve_column SimpleMapper.table_mappings SimpleMapper.column_mappings
        "tb_prod_cat" "qtd_est").confidence_score = (0.9 : ℚ) ∧
    ¬(SimpleMapper.resolve_column SimpleMapper.table_mappings SimpleMapper.column_mappings
        "tb_prod_cat" "qtd_est").modern_table = "tb_prod_cat" ∧
    ¬(SimpleMapper.resolve_column SimpleMapper.table_mappings SimpleMapper.column_mappings
        "tb_prod_cat" "qtd_est").modern_column = "qtd_est" ∧
    ¬(SimpleMapper.resolve_column SimpleMapper.table_mappings SimpleMapper.column_mappings
        "tb_prod_cat" "qtd_est").confidence_score = (0.3 : ℚ) := by
  refine ⟨by decide, by decide, ?_, by decide, by decide, ?_⟩
  · show (if SimpleMapper.pyDictContains SimpleMapper.column_mappings "qtd_est"
        then mkRat 9 10 else mkRat 3 10) = (0.9 : ℚ)
    rw [if_pos (by decide)]
    norm_num
  · show ¬(if SimpleMapper.pyDictContains SimpleMapper.column_mappings "qtd_est"
        then mkRat 9 10 else mkRat 3 10) = (0.3 : ℚ)
    rw [if_pos (by decide)]
    norm_num

/-- **C6 (amended).** A legacy column whose column name matches no
column-rule key and whose table name matches no table-rule key yields the
identity `SimpleMapping` at confidence exactly 0.3; and any resolver
result of confidence 0.3 fails the engine's `> 0.5` acceptance test, so
the engine's per-column step routes its item to `unmapped_items`.
(The spec's example `tb_prod_cat.qtd_est` matches the shipped rules — see
the counterexample — so it is not such a column.) -/
theorem c6_identity_fallback :
    (∀ (table_rules column_rules : List (String × String)) (t c : String),
      SimpleMapper.pyDictContains column_rules c = false →
      SimpleMapper.pyDictContains table_rules t = false →
      SimpleMapper.resolve_column table_rules column_rules t c =
        { legacy_table := t, legacy_column := c, modern_table := t, modern_column := c
          confidence_score := (0.3 : ℚ)
          reasoning := "Mapped \x27" ++ c ++ "\x27 to \x27" ++ c
            ++ "\x27 based on naming patterns" }) ∧
    (∀ (vs : Option VectorStore) (respond : String → List CandidateMatch → Option Json)
        (acc : List MappingResult × List String) (item : String) (m : MappingResult),
      IntelligentMapper.verify_mapping item (IntelligentMapper.find_candidates vs item)
          (respond item (IntelligentMapper.find_candidates vs item)) = .ok (some m) →
      m.confidence_score = (0.3 : ℚ) →
      IntelligentMapper.process_column vs respond acc item
        = .ok (acc.1, acc.2 ++ [item])) := by
  constructor
  · intro table_rules column_rules t c h1 h2
    have hget1 : SimpleMapper.pyDictGet table_rules t t = t := pyDictGet_eq_default h2 t
    have hget2 : SimpleMapper.pyDictGet column_rules c c = c := pyDictGet_eq_default h1 c
    simp only [SimpleMapper.resolve_column, hget1, hget2, h1, Bool.false_eq_true,
      if_false, SimpleMapper.SimpleMapping.mk.injEq]
    norm_num
  · intro vs respond acc item m hv hconf
    rw [process_column_eq_verdict, item_verdict_of_low hv (by rw [hconf]; norm_num)]

/-- A reasoning-service oracle that always answers with confidence 0.3. -/
def respond_low : String → List CandidateMatch → Option Json := fun _item _cands =>
  some (Json.obj
    [("best_match", Json.str "products.stock_quantity"),
     ("confidence", Json.num (mkRat 3 10)),
     ("transformation_logic", Json.str "Direct mapping"),
     ("reasoning", Json.str "Guess")])

/-- The confidence-0.3 mapping `respond_low` induces on `tb_x.c1`. -/
def low_w : MappingResult :=
  { legacy_table := "tb_x", legacy_column := "c1"
    modern_table := "products", modern_column := "stock_quantity"
    confidence_score := mkRat 3 10
    transformation_logic := "Direct mapping", reasoning := "Guess" }

/-- Witness for the amended C6 at concrete inputs: a column matching no
rule resolves to the identity mapping at 0.3, and a 0.3-confidence result
is routed to `unmapped_items` by the engine's per-column step. -/
theorem c6_witness :
    SimpleMapper.pyDictContains ([] : List (String × String)) "legacy_col" = false ∧
    SimpleMapper.resolve_column [] [] "legacy_tbl" "legacy_col" =
      { legacy_table := "legacy_tbl", legacy_column := "legacy_col"
        modern_table := "legacy_tbl", modern_column := "legacy_col"
        confidence_score := (0.3 : ℚ)
        reasoning :=
          "Mapped \x27legacy_col\x27 to \x27legacy_col\x27 based on naming patterns" } ∧
    IntelligentMapper.verify_mapping "tb_x.c1"
        (IntelligentMapper.find_candidates vs_w "tb_x.c1")
        (respond_low "tb_x.c1" (IntelligentMapper.find_candidates vs_w "tb_x.c1"))
      = .ok (some low_w) ∧
    low_w.confidence_score = (0.3 : ℚ) ∧
    IntelligentMapper.process_column vs_w respond_low ([], []) "tb_x.c1"
      = .ok ([], ["tb_x.c1"]) := by
  refine ⟨rfl, ?_, rfl, by norm_num [low_w], ?_⟩
  · exact c6_identity_fallback.1 [] [] "legacy_tbl" "legacy_col" rfl rfl
  · exact c6_identity_fallback.2 vs_w respond_low ([], []) "tb_x.c1" low_w rfl
      (by norm_num [low_w])

/-! ### C9: the rule-based mapper maps every column unconditionally -/

theorem foldl_append_singleton {α β : Type} (f : α → β) (l : List α) (acc : List β) :
    l.foldl (fun a x => a ++ [f x]) acc = acc ++ l.map f := by
  induction l generalizing acc with
  | nil => simp
  | cons x xs ih =>
    rw [List.foldl_cons, ih, List.map_cons]
    simp

theorem simple_map_schema_aux (table_rules column_rules : List (String × String))
    (tables : List TableInfo) (acc : List SimpleMapper.SimpleMapping) :
    tables.foldl
      (fun a t =>
        t.columns.foldl
          (fun a2 c => a2 ++ [SimpleMapper.resolve_column table_rules column_rules t.name c.name])
          a)
      acc
    = acc ++ (tables.map (fun t => t.columns.map
        (fun c => SimpleMapper.resolve_column table_rules column_rules t.name c.name))).flatten := by
  induction tables generalizing acc with
  | nil => simp
  | cons t ts ih =>
    rw [List.foldl_cons, ih, foldl_append_singleton]
    simp

/-- **C9.** The rule-based `SimpleMapper.map_schema` returns exactly one
`SimpleMapping` per column of every table, in table-declaration then
column-declaration order, unconditionally: its output is the plain
concatenation of the per-column resolutions — no confidence filtering, no
unmapped-items list, and low-confidence identity fallbacks included. -/
theorem c9_simple_mapper_total (table_rules column_rules : List (String × String))
    (tables : List TableInfo) :
    SimpleMapper.map_schema table_rules column_rules tables =
      (tables.map (fun t => t.columns.map
        (fun c => SimpleMapper.resolve_column table_rules column_rules t.name c.name))).flatten := by
  rw [SimpleMapper.map_schema, simple_map_schema_aux]
  simp

/-! ### C5: script-generator grouping -/

/-- Specification device: the first-seen order of `modern_table` keys, the
insertion order of the `table_mappings` dict in `generate_sql_script`. -/
def group_keys (mappings : List MappingResult) : List String :=
  mappings.foldl
    (fun ks m => if ks.contains m.modern_table then ks else ks ++ [m.modern_table]) []

theorem contains_iff_mem_str {l : List String} {a : String} :
    l.contains a = true ↔ a ∈ l := by
  simp [List.contains]

theorem any_map_general {α β : Type} (f : α → β) (p : β → Bool) (l : List α) :
    (l.map f).any p = l.any (fun a => p (f a)) := by
  induction l with
  | nil => rfl
  | cons x xs ih => simp [List.any_cons, ih]

theorem mem_group_keys (k : String) (ms : List MappingResult) :
    k ∈ group_keys ms ↔ k ∈ ms.map (fun m => m.modern_table) := by
  induction ms using List.reverseRecOn generalizing k with
  | nil => simp [group_keys]
  | append_singleton ms m ih =>
    rw [group_keys, List.foldl_append, List.foldl_cons, List.foldl_nil, ← group_keys]
    by_cases hc : (group_keys ms).contains m.modern_table = true
    · rw [if_pos hc]
      have hmem : m.modern_table ∈ ms.map (fun m2 => m2.modern_table) :=
        (ih m.modern_table).mp (contains_iff_mem_str.mp hc)
      simp only [List.map_append, List.map_cons, List.map_nil, List.mem_append, ih k]
      constructor
      · exact Or.inl
      · rintro (h | h)
        · exact h
        · rw [List.mem_singleton.mp h]
          exact hmem
    · rw [if_neg hc]
      simp [List.mem_append, ih k]

theorem group_spec (ms : List MappingResult) :
    IntelligentMapper.group_by_modern_table ms =
      (group_keys ms).map
        (fun k => (k, ms.filter (fun m2 => m2.modern_table == k))) := by
  induction ms using List.reverseRecOn with
  | nil => rfl
  | append_singleton ms m ih =>
    have hgb : IntelligentMapper.group_by_modern_table (ms ++ [m])
        = IntelligentMapper.add_to_groups (IntelligentMapper.group_by_modern_table ms) m := by
      rw [IntelligentMapper.group_by_modern_table, List.foldl_append, List.foldl_cons,
        List.foldl_nil]
      rfl
    have hgk : group_keys (ms ++ [m])
        = if (group_keys ms).contains m.modern_table then group_keys ms
          else group_keys ms ++ [m.modern_table] := by
      rw [group_keys, List.foldl_append, List.foldl_cons, List.foldl_nil]
      rfl
    rw [hgb, ih, IntelligentMapper.add_to_groups, hgk]
    have hany : ((group_keys ms).map
        (fun k => (k, ms.filter (fun m2 => m2.modern_table == k)))).any
          (fun p => p.1 == m.modern_table)
        = (group_keys ms).contains m.modern_table := by
      rw [any_map_general, Bool.eq_iff_iff]
      constructor
      · intro h
        obtain ⟨k, hk, hbeq⟩ := List.any_eq_true.mp h
        have hkm : k = m.modern_table := by simpa using hbeq
        exact contains_iff_mem_str.mpr (hkm ▸ hk)
      · intro h
        exact List.any_eq_true.mpr
          ⟨m.modern_table, contains_iff_mem_str.mp h, by simp⟩
    rw [hany]
    by_cases hc : (group_keys ms).contains m.modern_table = true
    · rw [if_pos hc, if_pos hc, List.map_map]
      apply List.map_congr_left
      intro k hk
      by_cases hkm : k = m.modern_table
      · subst hkm
        simp [List.filter_append]
      · have hmk : ¬(k == m.modern_table) = true := by simp [hkm]
        simp only [Function.comp_apply, hmk, if_false, List.filter_append,
          List.filter_cons, List.filter_nil]
        have : ¬(m.modern_table == k) = true := by
          simp only [beq_iff_eq]
          exact fun he => hkm he.symm
        simp [this]
    · rw [if_neg hc, if_neg hc, List.map_append]
      have hnotin : m.modern_table ∉ ms.map (fun m2 => m2.modern_table) :=
        fun hmem => hc (contains_iff_mem_str.mpr ((mem_group_keys m.modern_table ms).mpr hmem))
      congr 1
      · apply List.map_congr_left
        intro k hk
        have hkm : ¬m.modern_table = k := by
          rintro rfl
          exact hc (contains_iff_mem_str.mpr hk)
        have : ¬(m.modern_table == k) = true := by simp [hkm]
        simp [List.filter_append, this]
      · have hfilnil : ms.filter (fun m2 => m2.modern_table == m.modern_table) = [] := by
          apply List.filter_eq_nil_iff.mpr
          intro a ha hpa
          exact hnotin (List.mem_map.mpr ⟨a, ha, by simpa using hpa⟩)
        simp [List.filter_append, hfilnil]

theorem mem_map_modern_iff_filter_ne_nil (ms : List MappingResult) (k : String) :
    k ∈ ms.map (fun m => m.modern_table) ↔
      ms.filter (fun m => m.modern_table == k) ≠ [] := by
  constructor
  · rintro h hnil
    obtain ⟨m, hm, hmk⟩ := List.mem_map.mp h
    exact (List.filter_eq_nil_iff.mp hnil m hm) (by simp [hmk])
  · intro h
    obtain ⟨m, hm⟩ := List.exists_mem_of_ne_nil _ h
    have := List.mem_filter.mp hm
    exact List.mem_map.mpr ⟨m, this.1, by simpa using this.2⟩

/-- **C5.** The script generator groups the accepted mappings by
`modern_table` with group order equal to first-seen order among the
input, emits exactly one INSERT-SELECT statement per group (whose FROM
clause `insert_script` takes from the first mapping of the group, even
when the group spans several distinct legacy tables), and the grouping is
stable under any input reordering that preserves each group's relative
order: inputs with identical per-key filters produce identical groups. -/
theorem c5_script_generator_grouping (ms : List MappingResult) :
    IntelligentMapper.generate_sql_script ms =
      String.intercalate "\n" ((group_keys ms).map (fun k =>
        IntelligentMapper.insert_script k
          (ms.filter (fun m => m.modern_table == k)))) ∧
    (∀ k, k ∈ group_keys ms ↔ k ∈ ms.map (fun m => m.modern_table)) ∧
    (∀ ms' : List MappingResult,
      (∀ k, ms'.filter (fun m => m.modern_table == k)
          = ms.filter (fun m => m.modern_table == k)) →
      ∀ p, p ∈ IntelligentMapper.group_by_modern_table ms' ↔
        p ∈ IntelligentMapper.group_by_modern_table ms) := by
  refine ⟨?_, fun k => mem_group_keys k ms, ?_⟩
  · rw [IntelligentMapper.generate_sql_script, group_spec, List.map_map]
    rfl
  · intro ms' hfil p
    have hkeys : ∀ k, k ∈ group_keys ms' ↔ k ∈ group_keys ms := by
      intro k
      rw [mem_group_keys, mem_group_keys, mem_map_modern_iff_filter_ne_nil,
        mem_map_modern_iff_filter_ne_nil, hfil k]
    rw [group_spec, group_spec]
    constructor
    · intro hp
      obtain ⟨k, hk, rfl⟩ := List.mem_map.mp hp
      exact List.mem_map.mpr ⟨k, (hkeys k).mp hk, by rw [hfil k]⟩
    · intro hp
      obtain ⟨k, hk, rfl⟩ := List.mem_map.mp hp
      exact List.mem_map.mpr ⟨k, (hkeys k).mpr hk, by rw [hfil k]⟩

/-- First concrete accepted mapping (group `customers`). -/
def gm1 : MappingResult :=
  { legacy_table := "tb_cli_reg", legacy_column := "c_nom"
    modern_table := "customers", modern_column := "full_name"
    confidence_score := mkRat 9 10, transformation_logic := "direct", reasoning := "r1" }

/-- Second concrete accepted mapping (group `orders`). -/
def gm2 : MappingResult :=
  { legacy_table := "tb_vendas_hdr", legacy_column := "dt_vnd"
    modern_table := "orders", modern_column := "order_date"
    confidence_score := mkRat 9 10, transformation_logic := "direct", reasoning := "r2" }

/-- Third concrete accepted mapping: same `customers` group as `gm1`, but
from a different legacy table. -/
def gm3 : MappingResult :=
  { legacy_table := "tb_cli_aux", legacy_column := "c_email"
    modern_table := "customers", modern_column := "email_address"
    confidence_score := mkRat 9 10, transformation_logic := "direct", reasoning := "r3" }

/-- Concrete accepted-mapping list. -/
def ms_w : List MappingResult := [gm1, gm2, gm3]

/-- A reordering of `ms_w` preserving each group's relative order. -/
def ms_w2 : List MappingResult := [gm2, gm1, gm3]

/-- Witness for C5 at concrete inputs: the reordering hypothesis holds,
the groups coincide, the `customers` group spans two legacy tables, and
its emitted statement selects FROM the first-seen one only. -/
theorem c5_witness :
    ms_w2.filter (fun m => m.modern_table == "customers")
      = ms_w.filter (fun m => m.modern_table == "customers") ∧
    (("customers", [gm1, gm3]) ∈ IntelligentMapper.group_by_modern_table ms_w2 ↔
      ("customers", [gm1, gm3]) ∈ IntelligentMapper.group_by_modern_table ms_w) ∧
    ("customers", [gm1, gm3]) ∈ IntelligentMapper.group_by_modern_table ms_w ∧
    gm1.legacy_table = "tb_cli_reg" ∧
    gm3.legacy_table = "tb_cli_aux" ∧
    IntelligentMapper.insert_script "customers" [gm1, gm3]
      = "\n-- Mapping for customers\nINSERT INTO customers (full_name, email_address)\nSELECT tb_cli_reg.c_nom, tb_cli_aux.c_email\nFROM tb_cli_reg;\n" := by
  have hfil : ∀ k, ms_w2.filter (fun m => m.modern_table == k)
      = ms_w.filter (fun m => m.modern_table == k) := by
    intro k
    by_cases hc : ("customers" : String) = k
    · subst hc; decide
    by_cases ho : ("orders" : String) = k
    · subst ho; decide
    have h1 : (gm1.modern_table == k) = false := by
      simp only [gm1]
      exact beq_eq_false_iff_ne.mpr hc
    have h2 : (gm2.modern_table == k) = false := by
      simp only [gm2]
      exact beq_eq_false_iff_ne.mpr ho
    have h3 : (gm3.modern_table == k) = false := by
      simp only [gm3]
      exact beq_eq_false_iff_ne.mpr hc
    simp [ms_w, ms_w2, List.filter, h1, h2, h3]
  exact ⟨hfil "customers",
    (c5_script_generator_grouping ms_w).2.2 ms_w2 hfil ("customers", [gm1, gm3]),
    by decide, rfl, rfl, by decide⟩

/-! ### C4, C7, C8, C10: resolver and index interface claims -/

/-- **C4 (code divergence).** The claim says a malformed service response
is never propagated as a crash and that a response missing any of
`confidence`/`transformation_logic`/`reasoning` yields no mapping.  The
code's `except` clause only catches `JSONDecodeError`/`KeyError`/
`ValueError`: on the valid-JSON response `{"best_match": 5}` — which is
missing those keys — the membership test `"." in 5` raises an uncaught
`TypeError` instead of returning `None`. -/
theorem c4_typeerror_on_nonstring_best_match :
    IntelligentMapper.verify_mapping "tb_cli_reg.c_nom" [cand_w]
        (some (Json.obj [("best_match", Json.num 5)]))
      = .error .typeError := rfl

/-- **C7.** With a loaded vector store, the candidate query issued for a
legacy item is exactly the framing text `"database column field "`
followed by the item, at the default retrieval width `k = 5` (the width
`map_schema`'s per-column step uses, since `process_column` invokes
`find_candidates` without overriding `k`). -/
theorem c7_query_text_and_k (f : VectorStore) (item : String) :
    IntelligentMapper.find_candidates (some f) item
      = f ("database column field " ++ item) 5 := rfl

/-- **C8.** Querying the candidate index before any indexing has been
performed (no vector store built) fails with the `NotReadyError`-style
error rather than returning a result. -/
theorem c8_query_before_index (query : String) (k : Nat) :
    SchemaEmbedder.find_similar none query k = .error .notReady := rfl

/-- **C10.** On a legacy item containing no `.` separator, the
verification resolver given a well-formed response still constructs a
`MappingResult`, with the sentinel `legacy_table = "unknown"` and
`legacy_column` equal to the whole item. -/
theorem c10_unknown_legacy_table (item : String) (c0 : CandidateMatch)
    (cs : List CandidateMatch) (bm tl rs : String) (conf : ℚ)
    (hnd : strHasDot item = false) (hbm : strHasDot bm = true) :
    IntelligentMapper.verify_mapping item (c0 :: cs)
        (some (Json.obj
          [("best_match", Json.str bm),
           ("confidence", Json.num conf),
           ("transformation_logic", Json.str tl),
           ("reasoning", Json.str rs)]))
      = .ok (some
          { legacy_table := "unknown", legacy_column := item
            modern_table := (pySplitDot1 bm).1, modern_column := (pySplitDot1 bm).2
            confidence_score := conf
            transformation_logic := tl, reasoning := rs }) := by
  simp [IntelligentMapper.verify_mapping, jsonLookup, pyContainsDot, pyFloat, hbm, hnd]

/-- Witness for C10 at concrete inputs. -/
theorem c10_witness :
    strHasDot "legacyitem" = false ∧
    strHasDot "customers.full_name" = true ∧
    IntelligentMapper.verify_mapping "legacyitem" [cand_w]
        (some (Json.obj
          [("best_match", Json.str "customers.full_name"),
           ("confidence", Json.num (mkRat 17 20)),
           ("transformation_logic", Json.str "Direct mapping"),
           ("reasoning", Json.str "Same meaning")]))
      = .ok (some
          { legacy_table := "unknown", legacy_column := "legacyitem"
            modern_table := (pySplitDot1 "customers.full_name").1
            modern_column := (pySplitDot1 "customers.full_name").2
            confidence_score := mkRat 17 20
            transformation_logic := "Direct mapping", reasoning := "Same meaning" }) :=
  ⟨by decide, by decide,
   c10_unknown_legacy_table "legacyitem" cand_w [] "customers.full_name"
     "Direct mapping" "Same meaning" (mkRat 17 20) (by decide) (by decide)⟩

end SchemaMapper
